import Mathlib

/-
Verification of the crawl-orchestration service in app.py.

Python strings are modelled as lists of Unicode code points (PyStr).
Python exceptions are modelled with an explicit error type (PyErr):
a function that can raise returns Except PyErr, and a statement
sequence that a raised exception aborts is modelled by propagating
the error and discarding the aborted tail.  The Redis state store is
modelled as explicit lists of (session key, member) pairs: a Redis
set keyed by a category corresponds to the pairs whose first
component is that category, and an empty Redis set does not exist,
so an EXISTS test on a set key is a nonemptiness test.  Celery task
dispatch (the .delay calls) is modelled by appending a task
descriptor to an explicit task queue.
-/

/-- A Python string: its sequence of Unicode code points. -/
abbrev PyStr := List Nat

/-- Code points of a Lean string literal, used to write PyStr constants. -/
def toPyStr (s : String) : PyStr := s.data.map Char.toNat

/-- Whitespace stripped by Python str.strip (ASCII range). -/
def isPySpace (c : Nat) : Bool :=
  c = 32 || c = 9 || c = 10 || c = 13 || c = 11 || c = 12

/-- Python str.strip(): drop leading and trailing whitespace. -/
def pyStrip (s : PyStr) : PyStr :=
  ((s.dropWhile isPySpace).reverse.dropWhile isPySpace).reverse

/-- Python str.lower() on one code point (ASCII letters). -/
def pyLowerChar (c : Nat) : Nat := if 65 ≤ c ∧ c ≤ 90 then c + 32 else c

/-- Python str.lower(). -/
def pyLower (s : PyStr) : PyStr := s.map pyLowerChar

/-- Membership in the character class [a-z0-9-] of the regex in
parse_category_name (app.py line 222). -/
def isKeyChar (c : Nat) : Bool :=
  (97 ≤ c && c ≤ 122) || (48 ≤ c && c ≤ 57) || c = 45

/-- Membership in the class of lowercase ASCII alphanumerics [a-z0-9]. -/
def isAlnum (c : Nat) : Bool :=
  (97 ≤ c && c ≤ 122) || (48 ≤ c && c ≤ 57)

mutual
/-- Python re.sub(class+, '-', s): every maximal run of characters outside
the class p is replaced by one dash (code point 45). -/
def subRuns (p : Nat → Bool) : PyStr → PyStr
  | [] => []
  | c :: rest => if p c then c :: subRuns p rest else 45 :: subRunsSkip p rest

/-- After emitting the dash for a run, skip the remainder of the run. -/
def subRunsSkip (p : Nat → Bool) : PyStr → PyStr
  | [] => []
  | c :: rest => if p c then c :: subRuns p rest else subRunsSkip p rest
end

/-- app.py lines 219-222: strip, lower-case, then replace every run of
characters outside [a-z0-9-] with a single dash.  Note that the regex
class contains the dash itself, so dashes already present never take
part in a replaced run.  (Python str.lower also lowers non-ASCII
letters, but every non-ASCII code point, lowered or not, lies outside
[a-z0-9-] and is absorbed into a dash run either way, so modelling
lower on the ASCII range is faithful for the result.) -/
def parse_category_name (category : PyStr) : PyStr :=
  subRuns isKeyChar (pyLower (pyStrip category))

/-- Modelled from the spec's words (section 3 and claim C5): lower-case and
collapse every run of non-alphanumeric characters to a single separator.
Written only to be compared with parse_category_name, which is the
function the source defines. -/
def normalize_collapse_runs (category : PyStr) : PyStr :=
  subRuns isAlnum (pyLower (pyStrip category))

/-- app.py lines 224-227: the export path for a category.  The directory
prefix (dirname of the source file joined with 'files') is a runtime
constant; it is modelled as the fixed prefix "files/". -/
def path_to_csv (category : PyStr) : PyStr :=
  toPyStr "files/" ++ parse_category_name category ++ toPyStr ".csv"

/-- A decimal digit code point. -/
def isDigitCode (c : Nat) : Bool := 48 ≤ c && c ≤ 57

/-- Value of a string of decimal digit code points. -/
def digitsToNat (l : PyStr) : Nat := l.foldl (fun n c => n * 10 + (c - 48)) 0

/-- The Python exceptions this program can propagate: IndexError from
sequence indexing, ValueError from int() on a digit-free string, and a
requests-level exception from a permanently failing fetch. -/
inductive PyErr
  | indexError
  | valueError
  | fetchError
deriving DecidableEq

/-- app.py lines 216-217: int(re.sub(r'\D+', '', string)).  Deleting all
non-digits and calling int raises ValueError when no digit remains. -/
def text_to_int (s : PyStr) : Except PyErr Nat :=
  let digits := s.filter isDigitCode
  if digits = [] then .error .valueError else .ok (digitsToNat digits)

/-- One extracted course record (the dict built in app.py lines 152-160). -/
structure CourseData where
  name : PyStr
  category : PyStr
  first_instructor : PyStr
  providers : PyStr
  ratings_count : Nat
  students_count : Nat
  description : PyStr
deriving DecidableEq

/-- The Redis state: the processing and finished URL sets of every session
(pairs of session key and URL, in insertion order, without duplicates)
and the course hash of every session (key (category, url) mapped to the
record; the JSON round trip through hset/hgetall is lossless and is
modelled as the identity). -/
structure Store where
  processing_urls : List (PyStr × PyStr)
  finished_urls : List (PyStr × PyStr)
  courses : List ((PyStr × PyStr) × CourseData)
deriving DecidableEq

/-- The store before any session has touched it. -/
def Store.empty : Store := ⟨[], [], []⟩

/-- Redis SADD on a set represented as a duplicate-free list: append the
member unless it is already present. -/
def sadd (s : List (PyStr × PyStr)) (x : PyStr × PyStr) : List (PyStr × PyStr) :=
  if x ∈ s then s else s ++ [x]

/-- Redis HSET: overwrite the field if present, else append it. -/
def hset (h : List ((PyStr × PyStr) × CourseData)) (k : PyStr × PyStr)
    (v : CourseData) : List ((PyStr × PyStr) × CourseData) :=
  if h.any (fun e => e.1 = k) then h.map (fun e => if e.1 = k then (k, v) else e)
  else h ++ [(k, v)]

/-- app.py lines 44-45: SADD url into category:processing_urls. -/
def set_processing_url (st : Store) (category url : PyStr) : Store :=
  { st with processing_urls := sadd st.processing_urls (category, url) }

/-- app.py lines 47-49: SADD url into category:finished_urls, then SREM it
from category:processing_urls. -/
def set_finished_url (st : Store) (category url : PyStr) : Store :=
  { st with
    finished_urls := sadd st.finished_urls (category, url),
    processing_urls := st.processing_urls.filter (fun p => p ≠ (category, url)) }

/-- app.py lines 51-53: the url is in the processing set or the finished
set of the session.  Defined by the source but called from nowhere. -/
def already_visited (st : Store) (category url : PyStr) : Bool :=
  decide ((category, url) ∈ st.processing_urls) ||
    decide ((category, url) ∈ st.finished_urls)

/-- app.py lines 31-33: store one extracted record under the url. -/
def save_course_data (st : Store) (category url : PyStr) (cd : CourseData) : Store :=
  { st with courses := hset st.courses (category, url) cd }

/-- app.py lines 35-36: EXISTS category:courses. -/
def has_courses (st : Store) (category : PyStr) : Bool :=
  st.courses.any (fun e => e.1.1 = category)

/-- app.py lines 38-42: HGETALL category:courses, JSON-decoded. -/
def get_courses (st : Store) (category : PyStr) : List (PyStr × CourseData) :=
  (st.courses.filter (fun e => e.1.1 = category)).map (fun e => (e.1.2, e.2))

/-- app.py lines 55-56: EXISTS category:processing_urls (an empty Redis
set does not exist, so this is nonemptiness of the processing set). -/
def has_unfinished_urls (st : Store) (category : PyStr) : Bool :=
  st.processing_urls.any (fun p => p.1 = category)

/-- app.py lines 58-59: EXISTS category:finished_urls. -/
def has_finished_urls (st : Store) (category : PyStr) : Bool :=
  st.finished_urls.any (fun p => p.1 = category)

/-- A dispatched Celery task (a .delay call in app.py). -/
inductive CrawlTask
  | load_course_task (category url : PyStr)
  | load_and_collect_task (category url : PyStr)
  | collect_category_task (category url : PyStr)
  | collect_csv_task (category : PyStr)
deriving DecidableEq

/-- Python str.split('/'): split at every slash, keeping empty pieces. -/
def splitSlash : PyStr → List PyStr
  | [] => [[]]
  | c :: rest =>
    match splitSlash rest with
    | [] => [[]]
    | g :: gs => if c = 47 then [] :: g :: gs else (c :: g) :: gs

/-- app.py lines 94-104: classify one discovered link.  Fewer than three
pieces after split('/') (for a root-relative link, fewer than two path
segments): return without effect.  First segment 'learn': mark the url
processing and dispatch a load_course task.  First segment
'specializations' or 'professional-certificates': mark it processing and
dispatch a load_and_collect_from_page task.  Anything else: no effect.
The store is consulted nowhere: no already_visited guard exists here. -/
def parse_link (category link_url : PyStr) (st : Store) (q : List CrawlTask) :
    Store × List CrawlTask :=
  let url_parts := splitSlash link_url
  if url_parts.length < 3 then (st, q)
  else
    let first_path_part := url_parts.getD 1 []
    if first_path_part = toPyStr "learn" then
      (set_processing_url st category link_url,
        q ++ [CrawlTask.load_course_task category link_url])
    else if first_path_part = toPyStr "specializations" ∨
        first_path_part = toPyStr "professional-certificates" then
      (set_processing_url st category link_url,
        q ++ [CrawlTask.load_and_collect_task category link_url])
    else (st, q)

/-- What BeautifulSoup finds on one fetched page, one field per CSS query
the source performs: the query results are the get_text() values of the
matched nodes (pre-strip), for the instructor node the direct text
children, and for the two link queries the href attributes. -/
structure Soup where
  breadcrumb_texts : List PyStr
  banner_title_texts : List PyStr
  ratings_count_texts : List PyStr
  product_metrics_texts : List PyStr
  instructor_node_texts : List (List PyStr)
  description_texts : List PyStr
  partner_texts : List PyStr
  course_link_urls : List PyStr
  all_link_urls : List PyStr
deriving DecidableEq

/-- Python sequence indexing l[i] for i ≥ 0: IndexError when out of range. -/
def pyIndex (l : List α) (i : Nat) : Except PyErr α :=
  match l.get? i with
  | some x => .ok x
  | none => .error .indexError

/-- Python l[-1]: the last element, IndexError on an empty sequence. -/
def pyLast (l : List α) : Except PyErr α :=
  match l.getLast? with
  | some x => .ok x
  | none => .error .indexError

/-- app.py lines 210-211: soup.select(sel)[0].get_text().strip(), given the
texts the selector matched. -/
def get_text_by_css (texts : List PyStr) : Except PyErr PyStr := do
  let t ← pyIndex texts 0
  pure (pyStrip t)

/-- The body of get_course_data (app.py lines 133-160), before the except
clause: the statements in source order, each indexing step able to raise
IndexError and each text_to_int able to raise ValueError. -/
def get_course_data_body (soup : Soup) : Except PyErr CourseData := do
  let category_nodes := soup.breadcrumb_texts
  let _first_category ← pyIndex category_nodes 1
  let last_category ← pyLast category_nodes
  let category := pyStrip last_category
  let name ← get_text_by_css soup.banner_title_texts
  let ratings_text ← get_text_by_css soup.ratings_count_texts
  let ratings_count ← text_to_int ratings_text
  let students_text ← get_text_by_css soup.product_metrics_texts
  let students_count ← text_to_int students_text
  let first_instructor_node ← pyIndex soup.instructor_node_texts 0
  let first_instructor :=
    List.intercalate (toPyStr " ") (first_instructor_node.map pyStrip)
  let description ← get_text_by_css soup.description_texts
  let providers_str :=
    List.intercalate (toPyStr ", ") (soup.partner_texts.map pyStrip)
  pure ⟨name, category, first_instructor, providers_str,
    ratings_count, students_count, description⟩

/-- app.py lines 132-163: run the body and catch IndexError only, turning
it into the absent record (None); any other exception propagates. -/
def get_course_data (soup : Soup) : Except PyErr (Option CourseData) :=
  match get_course_data_body soup with
  | .ok cd => .ok (some cd)
  | .error .indexError => .ok none
  | .error e => .error e

/-- The for loops over discovered links (app.py lines 90-91 and 118-119):
parse_link on each href in order, threading store and task queue. -/
def parse_links (category : PyStr) (links : List PyStr) (st : Store)
    (q : List CrawlTask) : Store × List CrawlTask :=
  links.foldl (fun acc link => parse_link category link acc.1 acc.2) (st, q)

/-- app.py lines 123-130, the leaf worker task.  soup_from_url is the
fetch oracle; a raised exception (fetch failure, or an extraction error
the except clause does not catch) aborts the task body, so every store
write after the raise point is lost: the function returns the store as
modified so far together with the propagated exception, and only a run
that reaches the last line marks the url finished. -/
def load_course (fetch : PyStr → Except PyErr Soup) (category url : PyStr)
    (st : Store) : Store × Option PyErr :=
  match fetch url with
  | .error e => (st, some e)
  | .ok soup =>
    match get_course_data soup with
    | .error e => (st, some e)
    | .ok course_data =>
      let st1 := match course_data with
        | some cd => save_course_data st category url cd
        | none => st
      (set_finished_url st1 category url, none)

/-- app.py lines 106-121, the branch worker task: fetch, extract, save the
record if one was produced, dispatch the page's nested course links, then
mark the url finished.  A raise aborts the remaining statements. -/
def load_and_collect_from_page (fetch : PyStr → Except PyErr Soup)
    (category url : PyStr) (st : Store) (q : List CrawlTask) :
    Store × List CrawlTask × Option PyErr :=
  match fetch url with
  | .error e => (st, q, some e)
  | .ok soup =>
    match get_course_data soup with
    | .error e => (st, q, some e)
    | .ok course_data =>
      let st1 := match course_data with
        | some cd => save_course_data st category url cd
        | none => st
      let sq := parse_links category soup.course_link_urls st1 q
      (set_finished_url sq.1 category url, sq.2, none)

/-- app.py lines 86-92, the root worker task: fetch the category page,
dispatch every anchor on it through parse_link, mark the url finished. -/
def collect_from_category (fetch : PyStr → Except PyErr Soup)
    (category url : PyStr) (st : Store) (q : List CrawlTask) :
    Store × List CrawlTask × Option PyErr :=
  match fetch url with
  | .error e => (st, q, some e)
  | .ok soup =>
    let sq := parse_links category soup.all_link_urls st q
    (set_finished_url sq.1 category url, sq.2, none)

/-- Exit report of the completion-watcher loop: which poll iteration it
exited on and why, or still_waiting when the observation window (the
fuel) ended with the loop still running. -/
inductive WatchOutcome
  | drained (iters : Nat)
  | timed_out (iters : Nat)
  | still_waiting
deriving DecidableEq

/-- The wait loop of collect_and_save_to_csv (app.py lines 73-79):
while has_unfinished_urls(category): sleep(1); break once the elapsed
time exceeds the timeout.  busy k is the value the k-th
has_unfinished_urls poll observes and elapsed k the value of
time() - start_time right after the sleep of iteration k; fuel bounds
how many iterations we observe. -/
def watch_loop (busy : Nat → Bool) (elapsed : Nat → Nat) (timeout : Nat) :
    Nat → Nat → WatchOutcome
  | 0, _ => .still_waiting
  | fuel + 1, k =>
    if busy k = false then .drained k
    else if timeout < elapsed k then .timed_out k
    else watch_loop busy elapsed timeout fuel (k + 1)

/-- The seven header names written by save_to_csv (app.py lines 170-178),
in source order. -/
def csv_header : List PyStr :=
  [toPyStr "Category Name", toPyStr "Course Name", toPyStr "Course Provider",
   toPyStr "First Instructor Name", toPyStr "Course Description",
   toPyStr "# of Students Enrolled", toPyStr "# of Ratings"]

/-- Decimal digits of n, most significant first (fuel-driven helper). -/
def natToDigitsAux : Nat → Nat → PyStr
  | 0, _ => []
  | fuel + 1, n =>
    if n < 10 then [48 + n] else natToDigitsAux fuel (n / 10) ++ [48 + n % 10]

/-- Python str(n) for the two integer counts. -/
def natToDecimal (n : Nat) : PyStr := natToDigitsAux (n + 1) n

/-- One record row in the column order of app.py lines 180-188. -/
def course_row (cd : CourseData) : List PyStr :=
  [cd.category, cd.name, cd.providers, cd.first_instructor, cd.description,
   natToDecimal cd.students_count, natToDecimal cd.ratings_count]

/-- csv.writer quoting trigger (QUOTE_MINIMAL, the default the source
leaves in force): a field is quoted exactly when it contains the
delimiter, the quote character, or a line-break character. -/
def needsQuote (f : PyStr) : Bool :=
  f.any (fun c => c = 44 || c = 34 || c = 13 || c = 10)

/-- Double every quote character inside a quoted field. -/
def escapeQuotes : PyStr → PyStr
  | [] => []
  | c :: rest =>
    if c = 34 then 34 :: 34 :: escapeQuotes rest else c :: escapeQuotes rest

/-- Serialize one field under QUOTE_MINIMAL. -/
def writeField (f : PyStr) : PyStr :=
  if needsQuote f then 34 :: (escapeQuotes f ++ [34]) else f

/-- Serialize the fields of a row, comma-separated. -/
def writeFields : List PyStr → PyStr
  | [] => []
  | [f] => writeField f
  | f :: rest => writeField f ++ 44 :: writeFields rest

/-- csv.writer.writerow: the serialized fields plus the CRLF terminator
(the csv module's default lineterminator). -/
def writeRow (fields : List PyStr) : PyStr := writeFields fields ++ [13, 10]

/-- app.py lines 165-188: write the header row, then one row per stored
course in order, each carrying the record's fields per course_row. -/
def save_to_csv (courses : List (PyStr × CourseData)) : PyStr :=
  courses.foldl (fun acc e => acc ++ writeRow (course_row e.2))
    (writeRow csv_header)

/-- Modelled from the claim's words (C9, "with text fields quoted"): the
same export but with the five text columns of every record row always
quoted.  Written only to be compared with save_to_csv, which is what the
source defines. -/
def save_to_csv_quote_text (courses : List (PyStr × CourseData)) : PyStr :=
  courses.foldl
    (fun acc e =>
      let quoted := ((course_row e.2).take 5).map (fun f => 34 :: (escapeQuotes f ++ [34]))
      acc ++ (writeFields (quoted ++ (course_row e.2).drop 5) ++ [13, 10]))
    (writeRow csv_header)

/-- Read one quoted field body after its opening quote: a doubled quote
stands for one quote character, a single quote closes the field. -/
def parseQuoted : List Nat → (List Nat × List Nat)
  | [] => ([], [])
  | c :: rest =>
    if c = 34 then
      match rest with
      | 34 :: rest2 =>
        let fr := parseQuoted rest2
        (34 :: fr.1, fr.2)
      | _ => ([], rest)
    else
      let fr := parseQuoted rest
      (c :: fr.1, fr.2)

/-- Read one unquoted field: everything up to a comma or carriage return. -/
def parseBare : List Nat → (List Nat × List Nat)
  | [] => ([], [])
  | c :: rest =>
    if c = 44 ∨ c = 13 then ([], c :: rest)
    else
      let fr := parseBare rest
      (c :: fr.1, fr.2)

/-- Read one field, quoted or bare, returning it with the rest of the
input (which in well-formed data starts at the field's separator). -/
def parseOneField : List Nat → (List Nat × List Nat)
  | [] => ([], [])
  | c :: rest => if c = 34 then parseQuoted rest else parseBare (c :: rest)

/-- Read the fields of one CSV row up to and including its CRLF
terminator; the fuel bounds the number of fields read. -/
def parseRowAux : Nat → List Nat → (List PyStr × List Nat)
  | 0, input => ([], input)
  | fuel + 1, input =>
    let fr := parseOneField input
    match fr.2 with
    | [] => ([fr.1], [])
    | c :: rest2 =>
      if c = 44 then
        let fsr := parseRowAux fuel rest2
        (fr.1 :: fsr.1, fsr.2)
      else if c = 13 then
        match rest2 with
        | 10 :: rest3 => ([fr.1], rest3)
        | _ => ([fr.1], rest2)
      else ([fr.1], c :: rest2)

/-- Read one CSV row. -/
def parseRow (input : List Nat) : List PyStr × List Nat :=
  parseRowAux (input.length + 1) input

/-- Read all CSV rows; the fuel bounds the number of rows. -/
def parseCsvAux : Nat → List Nat → List (List PyStr)
  | 0, _ => []
  | fuel + 1, input =>
    match input with
    | [] => []
    | c :: rest =>
      let r := parseRow (c :: rest)
      r.1 :: parseCsvAux fuel r.2

/-- A CSV reader for the format csv.writer emits: used to state that the
export, with its minimal quoting, still parses back into exactly the
rows that were written (embedded separators are tolerated). -/
def parseCsv (input : List Nat) : List (List PyStr) :=
  parseCsvAux (input.length + 1) input

/-- Outcome of a GET /category/<category> request (app.py lines 246-260). -/
inductive PollResult
  | export_file (path : PyStr)
  | not_found
  | pending
deriving DecidableEq

/-- app.py lines 246-260: serve the export file if it exists; else 404
when the session has at least one finished url, no processing url and no
stored course; else the self-refreshing please-wait page. -/
def category_route (file_exists : PyStr → Bool) (st : Store)
    (category : PyStr) : PollResult :=
  let key := parse_category_name category
  let csv_path := path_to_csv key
  if file_exists csv_path then .export_file csv_path
  else if has_finished_urls st key && !(has_unfinished_urls st key)
      && !(has_courses st key) then .not_found
  else .pending

/-- Outcome of a POST /category request (app.py lines 234-244). -/
inductive PostResult
  | bad_request
  | redirect_to (loc : PyStr)
deriving DecidableEq

/-- app.py lines 234-244: an empty (falsy) category form value aborts with
400 before anything else happens; otherwise the crawl task is dispatched
only when no export file exists yet, and the response is a redirect to
the poll endpoint for the raw category.  The pair returned is the HTTP
outcome and the list of Celery tasks the request dispatched. -/
def post_category (file_exists : PyStr → Bool) (category : PyStr) :
    PostResult × List CrawlTask :=
  if category = [] then (.bad_request, [])
  else
    let csv_path := path_to_csv category
    let tasks :=
      if file_exists csv_path then ([] : List CrawlTask)
      else [CrawlTask.collect_csv_task category]
    (.redirect_to (toPyStr "/category/" ++ category), tasks)

/-- Every character the substitution emits satisfies the class predicate,
provided the dash itself does (as it does for [a-z0-9-]). -/
theorem subRuns_mem (p : Nat → Bool) (hp : p 45 = true) (l : PyStr) :
    (∀ c ∈ subRuns p l, p c = true) ∧ (∀ c ∈ subRunsSkip p l, p c = true) := by
  induction l with
  | nil =>
    constructor <;> intro c hc <;> simp [subRuns, subRunsSkip] at hc
  | cons a rest ih =>
    constructor
    · intro c hc
      simp only [subRuns] at hc
      split at hc
      · rcases List.mem_cons.mp hc with rfl | hc2
        · assumption
        · exact ih.1 c hc2
      · rcases List.mem_cons.mp hc with rfl | hc2
        · exact hp
        · exact ih.2 c hc2
    · intro c hc
      simp only [subRunsSkip] at hc
      split at hc
      · rcases List.mem_cons.mp hc with rfl | hc2
        · assumption
        · exact ih.1 c hc2
      · exact ih.2 c hc

/-- The substitution leaves a string alone when every character is inside
the class. -/
theorem subRuns_eq_self (p : Nat → Bool) (l : PyStr)
    (h : ∀ c ∈ l, p c = true) : subRuns p l = l := by
  induction l with
  | nil => rfl
  | cons a rest ih =>
    have ha : p a = true := h a (List.mem_cons_self a rest)
    simp only [subRuns, ha, if_true]
    exact congrArg (a :: ·) (ih fun c hc => h c (List.mem_cons_of_mem a hc))

/-- dropWhile is the identity when no element satisfies the predicate. -/
theorem dropWhile_eq_self_of_none (p : Nat → Bool) (l : PyStr)
    (h : ∀ c ∈ l, p c = false) : l.dropWhile p = l := by
  cases l with
  | nil => rfl
  | cons a rest =>
    have := h a (List.mem_cons_self a rest)
    simp [List.dropWhile_cons, this]

/-- Stripping is the identity on whitespace-free strings. -/
theorem pyStrip_eq_self (l : PyStr) (h : ∀ c ∈ l, isPySpace c = false) :
    pyStrip l = l := by
  unfold pyStrip
  rw [dropWhile_eq_self_of_none _ _ h,
    dropWhile_eq_self_of_none _ _ (fun c hc => h c (List.mem_reverse.mp hc)),
    List.reverse_reverse]

/-- Mapping a function that fixes every member is the identity. -/
theorem map_eq_self_of_fixed (f : Nat → Nat) (l : PyStr)
    (h : ∀ c ∈ l, f c = c) : l.map f = l := by
  induction l with
  | nil => rfl
  | cons a rest ih =>
    simp only [List.map_cons, h a (List.mem_cons_self a rest)]
    exact congrArg (a :: ·) (ih fun c hc => h c (List.mem_cons_of_mem a hc))

/-- Characters of the key class are fixed by lower-casing. -/
theorem pyLowerChar_of_keyChar (c : Nat) (h : isKeyChar c = true) :
    pyLowerChar c = c := by
  simp only [isKeyChar, Bool.or_eq_true, Bool.and_eq_true, decide_eq_true_eq] at h
  unfold pyLowerChar
  rw [if_neg]
  omega

/-- Characters of the key class are not whitespace. -/
theorem keyChar_not_space (c : Nat) (h : isKeyChar c = true) :
    isPySpace c = false := by
  simp only [isKeyChar, Bool.or_eq_true, Bool.and_eq_true, decide_eq_true_eq] at h
  simp only [isPySpace, Bool.or_eq_false_iff, decide_eq_false_iff_not]
  omega

/-- Every character of a normalized category key lies in [a-z0-9-]. -/
theorem parse_category_name_keyChars (s : PyStr) :
    ∀ c ∈ parse_category_name s, isKeyChar c = true :=
  (subRuns_mem isKeyChar (by decide) (pyLower (pyStrip s))).1

/-- Normalization is idempotent: a normalized key has no whitespace to
strip, no uppercase to lower, and no character outside [a-z0-9-] to
replace. -/
theorem parse_category_name_idem (s : PyStr) :
    parse_category_name (parse_category_name s) = parse_category_name s := by
  have hk := parse_category_name_keyChars s
  show subRuns isKeyChar (pyLower (pyStrip (parse_category_name s))) = _
  rw [pyStrip_eq_self _ (fun c hc => keyChar_not_space c (hk c hc))]
  unfold pyLower
  rw [map_eq_self_of_fixed _ _ (fun c hc => pyLowerChar_of_keyChar c (hk c hc)),
    subRuns_eq_self _ _ hk]

/-- The export path depends only on the normalized key. -/
theorem path_to_csv_of_normalized (s : PyStr) :
    path_to_csv (parse_category_name s) = path_to_csv s := by
  unfold path_to_csv
  rw [parse_category_name_idem]

/-- Two class predicates that agree on every character of a string give
the same substitution result. -/
theorem subRuns_congr (p q : Nat → Bool) (l : PyStr)
    (h : ∀ c ∈ l, p c = q c) :
    subRuns p l = subRuns q l ∧ subRunsSkip p l = subRunsSkip q l := by
  induction l with
  | nil => exact ⟨rfl, rfl⟩
  | cons a rest ih =>
    have ih2 := ih fun c hc => h c (List.mem_cons_of_mem a hc)
    have ha := h a (List.mem_cons_self a rest)
    constructor
    · simp only [subRuns, ha, ih2.1, ih2.2]
    · simp only [subRunsSkip, ha, ih2.1, ih2.2]

/-- Away from the dash, the regex class [a-z0-9-] agrees with the
alphanumeric class [a-z0-9]. -/
theorem isKeyChar_eq_isAlnum (c : Nat) (h : c ≠ 45) :
    isKeyChar c = isAlnum c := by
  simp only [isKeyChar, isAlnum, decide_eq_true_eq]
  have : decide (c = 45) = false := by simp [h]
  rw [this, Bool.or_false]

/-- Lower-casing cannot produce a dash from a non-dash. -/
theorem pyLowerChar_ne_dash (c : Nat) (h : c ≠ 45) : pyLowerChar c ≠ 45 := by
  unfold pyLowerChar
  split <;> omega

/-- Stripping only removes characters. -/
theorem pyStrip_subset (l : PyStr) : ∀ c ∈ pyStrip l, c ∈ l := by
  intro c hc
  unfold pyStrip at hc
  rw [List.mem_reverse] at hc
  have h1 := (List.dropWhile_sublist (l := (l.dropWhile isPySpace).reverse) isPySpace).subset hc
  rw [List.mem_reverse] at h1
  exact (List.dropWhile_sublist isPySpace).subset h1

/-- Membership in sadd of the inserted element. -/
theorem mem_sadd (s : List (PyStr × PyStr)) (x : PyStr × PyStr) :
    x ∈ sadd s x := by
  unfold sadd
  split
  · assumption
  · exact List.mem_append_right s (List.mem_cons_self x [])

/-- SREM removes every occurrence of the member. -/
theorem not_mem_filter_ne (s : List (PyStr × PyStr)) (x : PyStr × PyStr) :
    x ∉ s.filter (fun p => p ≠ x) := by
  intro h
  have := (List.mem_filter.mp h).2
  simp at this

/-- has_finished_urls is nonemptiness of the session's finished set. -/
theorem has_finished_urls_iff (st : Store) (k : PyStr) :
    has_finished_urls st k = true ↔ ∃ u, (k, u) ∈ st.finished_urls := by
  unfold has_finished_urls
  rw [List.any_eq_true]
  constructor
  · rintro ⟨⟨k2, u⟩, hm, hp⟩
    simp only [decide_eq_true_eq] at hp
    exact ⟨u, by rwa [← hp]⟩
  · rintro ⟨u, hm⟩
    exact ⟨(k, u), hm, by simp⟩

/-- has_unfinished_urls is nonemptiness of the session's processing set. -/
theorem has_unfinished_urls_iff (st : Store) (k : PyStr) :
    has_unfinished_urls st k = true ↔ ∃ u, (k, u) ∈ st.processing_urls := by
  unfold has_unfinished_urls
  rw [List.any_eq_true]
  constructor
  · rintro ⟨⟨k2, u⟩, hm, hp⟩
    simp only [decide_eq_true_eq] at hp
    exact ⟨u, by rwa [← hp]⟩
  · rintro ⟨u, hm⟩
    exact ⟨(k, u), hm, by simp⟩

/-- has_courses is nonemptiness of the session's record hash. -/
theorem has_courses_iff (st : Store) (k : PyStr) :
    has_courses st k = true ↔ ∃ u cd, ((k, u), cd) ∈ st.courses := by
  unfold has_courses
  rw [List.any_eq_true]
  constructor
  · rintro ⟨⟨⟨k2, u⟩, cd⟩, hm, hp⟩
    simp only [decide_eq_true_eq] at hp
    exact ⟨u, cd, by rwa [← hp]⟩
  · rintro ⟨u, cd, hm⟩
    exact ⟨((k, u), cd), hm, by simp⟩

/-- Indexing can only raise IndexError. -/
theorem pyIndex_error {α : Type} {l : List α} {i : Nat} {e : PyErr}
    (h : pyIndex l i = .error e) : e = .indexError := by
  unfold pyIndex at h
  split at h
  · cases h
  · cases h
    rfl

/-- Taking the last element can only raise IndexError. -/
theorem pyLast_error {α : Type} {l : List α} {e : PyErr}
    (h : pyLast l = .error e) : e = .indexError := by
  unfold pyLast at h
  split at h
  · cases h
  · cases h
    rfl

/-- A single-element selection can only raise IndexError. -/
theorem get_text_by_css_error {texts : List PyStr} {e : PyErr}
    (h : get_text_by_css texts = .error e) : e = .indexError := by
  unfold get_text_by_css at h
  cases hi : pyIndex texts 0 with
  | error e2 =>
    rw [hi] at h
    cases h
    exact pyIndex_error hi
  | ok t =>
    rw [hi] at h
    cases h

/-- A successful selection strips the text of the first matched node. -/
theorem get_text_by_css_ok {texts : List PyStr} {s : PyStr}
    (h : get_text_by_css texts = .ok s) :
    ∃ t, texts.head? = some t ∧ s = pyStrip t := by
  unfold get_text_by_css at h
  cases hi : pyIndex texts 0 with
  | error e2 =>
    rw [hi] at h
    cases h
  | ok t =>
    rw [hi] at h
    cases h
    refine ⟨t, ?_, rfl⟩
    unfold pyIndex at hi
    split at hi
    · cases hi
      rwa [← List.get?_zero]
    · cases hi

/-- text_to_int can only raise ValueError, and only on digit-free text. -/
theorem text_to_int_error {s : PyStr} {e : PyErr}
    (h : text_to_int s = .error e) :
    e = .valueError ∧ s.filter isDigitCode = [] := by
  unfold text_to_int at h
  by_cases hd : s.filter isDigitCode = []
  · simp only [hd, if_pos] at h
    cases h
    exact ⟨rfl, hd⟩
  · simp only [if_neg hd] at h
    cases h

/-- An exception escaping the body of get_course_data is either the
IndexError of a missing structural element or the ValueError of a count
field whose stripped text contains no digit. -/
theorem get_course_data_body_error (soup : Soup) (e : PyErr)
    (h : get_course_data_body soup = .error e) :
    e = .indexError ∨ (e = .valueError ∧
      ((∃ t, soup.ratings_count_texts.head? = some t ∧ (pyStrip t).filter isDigitCode = []) ∨
       (∃ t, soup.product_metrics_texts.head? = some t ∧ (pyStrip t).filter isDigitCode = []))) := by
  unfold get_course_data_body at h
  simp only [bind, Except.bind] at h
  cases h1 : pyIndex soup.breadcrumb_texts 1 with
  | error e1 =>
    rw [h1] at h
    dsimp only at h
    cases h
    exact .inl (pyIndex_error h1)
  | ok v1 =>
    rw [h1] at h
    dsimp only at h
    cases h2 : pyLast soup.breadcrumb_texts with
    | error e2 =>
      rw [h2] at h
      dsimp only at h
      cases h
      exact .inl (pyLast_error h2)
    | ok v2 =>
      rw [h2] at h
      dsimp only at h
      cases h3 : get_text_by_css soup.banner_title_texts with
      | error e3 =>
        rw [h3] at h
        dsimp only at h
        cases h
        exact .inl (get_text_by_css_error h3)
      | ok name =>
        rw [h3] at h
        dsimp only at h
        cases h4 : get_text_by_css soup.ratings_count_texts with
        | error e4 =>
          rw [h4] at h
          dsimp only at h
          cases h
          exact .inl (get_text_by_css_error h4)
        | ok rt =>
          rw [h4] at h
          dsimp only at h
          cases h5 : text_to_int rt with
          | error e5 =>
            rw [h5] at h
            dsimp only at h
            cases h
            obtain ⟨rfl, hd⟩ := text_to_int_error h5
            obtain ⟨t, ht, rfl⟩ := get_text_by_css_ok h4
            exact .inr ⟨rfl, .inl ⟨t, ht, hd⟩⟩
          | ok rc =>
            rw [h5] at h
            dsimp only at h
            cases h6 : get_text_by_css soup.product_metrics_texts with
            | error e6 =>
              rw [h6] at h
              dsimp only at h
              cases h
              exact .inl (get_text_by_css_error h6)
            | ok st =>
              rw [h6] at h
              dsimp only at h
              cases h7 : text_to_int st with
              | error e7 =>
                rw [h7] at h
                dsimp only at h
                cases h
                obtain ⟨rfl, hd⟩ := text_to_int_error h7
                obtain ⟨t, ht, rfl⟩ := get_text_by_css_ok h6
                exact .inr ⟨rfl, .inr ⟨t, ht, hd⟩⟩
              | ok sc =>
                rw [h7] at h
                dsimp only at h
                cases h8 : pyIndex soup.instructor_node_texts 0 with
                | error e8 =>
                  rw [h8] at h
                  dsimp only at h
                  cases h
                  exact .inl (pyIndex_error h8)
                | ok inode =>
                  rw [h8] at h
                  dsimp only at h
                  cases h9 : get_text_by_css soup.description_texts with
                  | error e9 =>
                    rw [h9] at h
                    dsimp only at h
                    cases h
                    exact .inl (get_text_by_css_error h9)
                  | ok desc =>
                    rw [h9] at h
                    dsimp only at h
                    cases h

/-- If the wait loop's exit condition holds somewhere inside the
observation window, the loop exits at the first such iteration, drained
or timed out accordingly, having observed a busy processing set and an
unexpired clock at every earlier iteration. -/
theorem watch_loop_exits (busy : Nat → Bool) (elapsed : Nat → Nat)
    (timeout : Nat) :
    ∀ fuel k,
      (∃ j, k ≤ j ∧ j < k + fuel ∧ (busy j = false ∨ timeout < elapsed j)) →
      ∃ j, k ≤ j ∧
        ((watch_loop busy elapsed timeout fuel k = .drained j ∧ busy j = false) ∨
         (watch_loop busy elapsed timeout fuel k = .timed_out j ∧
           busy j = true ∧ timeout < elapsed j)) ∧
        ∀ i, k ≤ i → i < j → busy i = true ∧ elapsed i ≤ timeout := by
  intro fuel
  induction fuel with
  | zero =>
    intro k ⟨j, hkj, hj, _⟩
    omega
  | succ n ih =>
    intro k hex
    cases hb : busy k with
    | false =>
      refine ⟨k, Nat.le_refl k, .inl ⟨?_, hb⟩, fun i h1 h2 => absurd (Nat.lt_of_le_of_lt h1 h2) (Nat.lt_irrefl k)⟩
      simp [watch_loop, hb]
    | true =>
      by_cases ht : timeout < elapsed k
      · refine ⟨k, Nat.le_refl k, .inr ⟨?_, hb, ht⟩, fun i h1 h2 => absurd (Nat.lt_of_le_of_lt h1 h2) (Nat.lt_irrefl k)⟩
        simp [watch_loop, hb, ht]
      · obtain ⟨j, hkj, hjlt, hcond⟩ := hex
        have hjk : j ≠ k := by
          rintro rfl
          rcases hcond with hc | hc
          · rw [hb] at hc
            cases hc
          · exact ht hc
        obtain ⟨j2, hk1j, hres, hmin⟩ :=
          ih (k + 1) ⟨j, by omega, by omega, hcond⟩
        have hloop : watch_loop busy elapsed timeout (n + 1) k =
            watch_loop busy elapsed timeout n (k + 1) := by
          simp [watch_loop, hb, ht]
        refine ⟨j2, by omega, by rwa [hloop], ?_⟩
        intro i h1 h2
        rcases Nat.eq_or_lt_of_le h1 with rfl | h1s
        · exact ⟨hb, by omega⟩
        · exact hmin i h1s h2

/-- A field that minimal quoting leaves bare contains no comma, quote or line break. -/
theorem needsQuote_false {f : PyStr} (h : needsQuote f = false) :
    ∀ c ∈ f, c ≠ 44 ∧ c ≠ 34 ∧ c ≠ 13 ∧ c ≠ 10 := by
  intro c hc
  unfold needsQuote at h
  rw [List.any_eq_false] at h
  have h2 := h c hc
  simp only [Bool.or_eq_true, decide_eq_true_eq, not_or] at h2
  tauto

/-- Reading a bare field back: it ends exactly at the separator that follows it. -/
theorem parseBare_rt (f rest : List Nat)
    (hf : ∀ c ∈ f, c ≠ 44 ∧ c ≠ 13)
    (hrest : rest = [] ∨ (∃ r, rest = 44 :: r) ∨ (∃ r, rest = 13 :: r)) :
    parseBare (f ++ rest) = (f, rest) := by
  induction f with
  | nil =>
    simp only [List.nil_append]
    rcases hrest with rfl | ⟨r, rfl⟩ | ⟨r, rfl⟩
    · rfl
    · simp [parseBare]
    · simp [parseBare]
  | cons c cf ih =>
    have hc := hf c (List.mem_cons_self c cf)
    have ih2 := ih (fun d hd => hf d (List.mem_cons_of_mem c hd))
    simp [parseBare, hc.1, hc.2, ih2]

/-- Reading a quoted field back undoes quote doubling and stops at the closing quote. -/
theorem parseQuoted_rt (f rest : List Nat)
    (hrest : rest = [] ∨ (∃ r, rest = 44 :: r) ∨ (∃ r, rest = 13 :: r)) :
    parseQuoted (escapeQuotes f ++ (34 :: rest)) = (f, rest) := by
  induction f with
  | nil =>
    simp only [escapeQuotes, List.nil_append, parseQuoted, if_pos rfl]
    rcases hrest with rfl | ⟨r, rfl⟩ | ⟨r, rfl⟩ <;> rfl
  | cons c cf ih =>
    by_cases hc : c = 34
    · subst hc
      simp [escapeQuotes, parseQuoted, ih]
    · simp only [escapeQuotes, if_neg hc, List.cons_append]
      rw [parseQuoted.eq_def]
      dsimp only
      rw [if_neg hc, ih]

/-- Reading back one field undoes writeField, whichever quoting branch it took. -/
theorem parseOneField_rt (f rest : List Nat)
    (hrest : rest = [] ∨ (∃ r, rest = 44 :: r) ∨ (∃ r, rest = 13 :: r)) :
    parseOneField (writeField f ++ rest) = (f, rest) := by
  unfold writeField
  cases hq : needsQuote f with
  | true =>
    rw [if_pos rfl]
    have : (34 :: (escapeQuotes f ++ [34])) ++ rest
        = 34 :: (escapeQuotes f ++ (34 :: rest)) := by
      simp [List.append_assoc]
    rw [this]
    simp only [parseOneField, if_pos rfl]
    exact parseQuoted_rt f rest hrest
  | false =>
    rw [if_neg (by simp [hq])]
    have hf := needsQuote_false hq
    cases f with
    | nil =>
      simp only [List.nil_append]
      rcases hrest with rfl | ⟨r, rfl⟩ | ⟨r, rfl⟩
      · rfl
      · simp [parseOneField, parseBare]
      · simp [parseOneField, parseBare]
    | cons c cf =>
      have hc := hf c (List.mem_cons_self c cf)
      have hb := parseBare_rt (c :: cf) rest
        (fun d hd => ⟨(hf d hd).1, (hf d hd).2.2.1⟩) hrest
      simp only [List.cons_append, parseOneField, if_neg hc.2.1]
      simpa using hb

/-- Reading back one serialized row recovers its fields and consumes its CRLF. -/
theorem parseRowAux_rt :
    ∀ (fs : List PyStr) (fuel : Nat) (after : List Nat),
      fs ≠ [] → fs.length ≤ fuel →
      parseRowAux fuel (writeRow fs ++ after) = (fs, after) := by
  intro fs
  induction fs with
  | nil => intro fuel after h _; exact absurd rfl h
  | cons f tl ih =>
    intro fuel after _ hfuel
    cases fuel with
    | zero => simp at hfuel
    | succ n =>
      cases tl with
      | nil =>
        have hin : writeRow [f] ++ after = writeField f ++ (13 :: 10 :: after) := by
          simp [writeRow, writeFields]
        rw [hin]
        simp only [parseRowAux]
        rw [parseOneField_rt f (13 :: 10 :: after) (Or.inr (Or.inr ⟨10 :: after, rfl⟩))]
        simp
      | cons f2 tl2 =>
        have hin : writeRow (f :: f2 :: tl2) ++ after
            = writeField f ++ (44 :: (writeRow (f2 :: tl2) ++ after)) := by
          simp [writeRow, writeFields]
        rw [hin]
        simp only [parseRowAux]
        rw [parseOneField_rt f (44 :: (writeRow (f2 :: tl2) ++ after))
          (Or.inr (Or.inl ⟨writeRow (f2 :: tl2) ++ after, rfl⟩))]
        have hrec := ih n after (by simp) (by simpa using Nat.lt_succ_iff.mp (Nat.lt_of_lt_of_le (by simp) hfuel))
        simp [hrec]

/-- A serialized row is at least as long as its field count (the separators alone provide it). -/
theorem writeFields_length (fs : List PyStr) :
    fs.length ≤ (writeFields fs).length + 1 := by
  induction fs with
  | nil => simp [writeFields]
  | cons f tl ih =>
    cases tl with
    | nil => simp [writeFields]
    | cons f2 tl2 =>
      have : writeFields (f :: f2 :: tl2) = writeField f ++ 44 :: writeFields (f2 :: tl2) := rfl
      rw [this]
      simp only [List.length_cons, List.length_append] at *
      omega

/-- A serialized row with its CRLF strictly exceeds its field count in length. -/
theorem writeRow_length (fs : List PyStr) : fs.length + 1 ≤ (writeRow fs).length := by
  have := writeFields_length fs
  simp only [writeRow, List.length_append]
  simp only [List.length_cons, List.length_nil]
  omega

/-- A serialized file is at least as long as its row count. -/
theorem rows_length_le_flatten (rows : List (List PyStr)) :
    rows.length ≤ ((rows.map writeRow).flatten).length := by
  induction rows with
  | nil => simp
  | cons r tl ih =>
    have h1 := writeRow_length r
    simp only [List.map_cons, List.flatten_cons, List.length_append, List.length_cons]
    omega

/-- parseRow, whose fuel is derived from its input length, round-trips one row. -/
theorem parseRow_rt (fs : List PyStr) (after : List Nat) (hne : fs ≠ []) :
    parseRow (writeRow fs ++ after) = (fs, after) := by
  unfold parseRow
  apply parseRowAux_rt fs _ after hne
  have h1 := writeRow_length fs
  simp only [List.length_append]
  omega

/-- Reading back a whole serialized file recovers every row. -/
theorem parseCsvAux_rt :
    ∀ (rows : List (List PyStr)) (fuel : Nat),
      (∀ r ∈ rows, r ≠ []) → rows.length ≤ fuel →
      parseCsvAux fuel ((rows.map writeRow).flatten) = rows := by
  intro rows
  induction rows with
  | nil =>
    intro fuel _ _
    cases fuel with
    | zero => rfl
    | succ n => rfl
  | cons r tl ih =>
    intro fuel hne hfuel
    cases fuel with
    | zero => simp at hfuel
    | succ n =>
      have hr : r ≠ [] := hne r (List.mem_cons_self r tl)
      have hinput : ((r :: tl).map writeRow).flatten
          = writeRow r ++ (tl.map writeRow).flatten := by
        simp
      have hnil : writeRow r ++ (tl.map writeRow).flatten ≠ [] := by
        intro hcontra
        have := writeRow_length r
        have h0 : (writeRow r).length = 0 := by
          have := congrArg List.length hcontra
          simp only [List.length_append, List.length_nil] at this
          omega
        simp only [List.length_eq_zero] at h0
        rw [h0] at this
        simp at this
      obtain ⟨c, cs, hcs⟩ := List.exists_cons_of_ne_nil hnil
      rw [hinput, hcs]
      simp only [parseCsvAux]
      rw [← hcs, parseRow_rt r ((tl.map writeRow).flatten) hr]
      exact congrArg (r :: ·)
        (ih n (fun x hx => hne x (List.mem_cons_of_mem r hx)) (by simpa using hfuel))

/-- A fold that appends pieces equals the flattened list of pieces. -/
theorem foldl_append_flatten {α : Type} (f : α → List Nat) :
    ∀ (l : List α) (init : List Nat),
      l.foldl (fun acc e => acc ++ f e) init = init ++ (l.map f).flatten := by
  intro l
  induction l with
  | nil => intro init; simp
  | cons a tl ih => intro init; simp [ih]

/-- save_to_csv is the serialization of the header row followed by one row per stored course. -/
theorem save_to_csv_flatten (courses : List (PyStr × CourseData)) :
    save_to_csv courses
      = ((csv_header :: courses.map (fun e => course_row e.2)).map writeRow).flatten := by
  unfold save_to_csv
  rw [foldl_append_flatten]
  simp only [List.map_cons, List.flatten_cons, List.map_map]
  rfl


/-- C1: the spec claims a link is enqueued as a new task only if the
first-seen check transitions it from unseen to processing, so no URL is
dispatched twice.  The code violates this: parse_link never consults
already_visited (which the source defines but never calls), so after a
first dispatch has put /learn/machine-learning into the processing set
(already_visited is true), a second parse_link on the same link still
enqueues a second load_course task for the same URL in the same session. -/
theorem parse_link_double_dispatch :
    already_visited
        (parse_link (toPyStr "data-science") (toPyStr "/learn/machine-learning")
          Store.empty []).1
        (toPyStr "data-science") (toPyStr "/learn/machine-learning") = true ∧
    (parse_link (toPyStr "data-science") (toPyStr "/learn/machine-learning")
        (parse_link (toPyStr "data-science") (toPyStr "/learn/machine-learning")
          Store.empty []).1
        (parse_link (toPyStr "data-science") (toPyStr "/learn/machine-learning")
          Store.empty []).2).2 =
      [CrawlTask.load_course_task (toPyStr "data-science")
          (toPyStr "/learn/machine-learning"),
        CrawlTask.load_course_task (toPyStr "data-science")
          (toPyStr "/learn/machine-learning")] := by
  exact ⟨by decide, by decide⟩

/-- C4: classification of a raw link by parse_link.  With fewer than
three pieces after split('/') — for the root-relative links of this site,
fewer than two path segments — the link is ignored with no effect; with
first segment learn it is dispatched as a leaf (load_course) task; with
first segment specializations or professional-certificates it is
dispatched as a branch (load_and_collect_from_page) task; every other
first segment is ignored with no effect.  Leaf tasks cause no recursion:
load_course takes no task queue and dispatches nothing. -/
theorem parse_link_classification (category link_url : PyStr) (st : Store)
    (q : List CrawlTask) :
    ((splitSlash link_url).length < 3 →
      parse_link category link_url st q = (st, q)) ∧
    (3 ≤ (splitSlash link_url).length →
      ((splitSlash link_url).getD 1 [] = toPyStr "learn" →
        parse_link category link_url st q =
          (set_processing_url st category link_url,
            q ++ [CrawlTask.load_course_task category link_url])) ∧
      (((splitSlash link_url).getD 1 [] = toPyStr "specializations" ∨
          (splitSlash link_url).getD 1 [] = toPyStr "professional-certificates") →
        parse_link category link_url st q =
          (set_processing_url st category link_url,
            q ++ [CrawlTask.load_and_collect_task category link_url])) ∧
      ((splitSlash link_url).getD 1 [] ≠ toPyStr "learn" →
        (splitSlash link_url).getD 1 [] ≠ toPyStr "specializations" →
        (splitSlash link_url).getD 1 [] ≠ toPyStr "professional-certificates" →
        parse_link category link_url st q = (st, q))) := by
  by_cases h3 : (splitSlash link_url).length < 3
  · refine ⟨fun _ => ?_, fun hge => absurd hge (by omega)⟩
    simp [parse_link, h3]
  · refine ⟨fun hlt => absurd hlt h3, fun _ => ⟨?_, ?_, ?_⟩⟩
    · intro heq
      simp only [List.getD_eq_getElem?_getD] at heq
      simp [parse_link, h3, heq]
    · rintro (heq | heq) <;>
        simp only [List.getD_eq_getElem?_getD] at heq <;>
        simp [parse_link, h3, heq,
          show ¬(toPyStr "specializations" = toPyStr "learn") by decide,
          show ¬(toPyStr "professional-certificates" = toPyStr "learn") by decide]
    · intro h1 h2 h4
      simp only [List.getD_eq_getElem?_getD] at h1 h2 h4
      simp [parse_link, h3, h1, h2, h4]

/-- C4 witness: the three behaviors at concrete links of each kind, plus
the too-short and ignored cases. -/
theorem parse_link_classification_witness :
    parse_link (toPyStr "data-science") (toPyStr "/learn/ml") Store.empty [] =
      (set_processing_url Store.empty (toPyStr "data-science") (toPyStr "/learn/ml"),
        [CrawlTask.load_course_task (toPyStr "data-science") (toPyStr "/learn/ml")]) ∧
    parse_link (toPyStr "data-science") (toPyStr "/specializations/x") Store.empty [] =
      (set_processing_url Store.empty (toPyStr "data-science") (toPyStr "/specializations/x"),
        [CrawlTask.load_and_collect_task (toPyStr "data-science") (toPyStr "/specializations/x")]) ∧
    parse_link (toPyStr "data-science") (toPyStr "/learn") Store.empty [] =
      (Store.empty, []) ∧
    parse_link (toPyStr "data-science") (toPyStr "/about/team") Store.empty [] =
      (Store.empty, []) := by
  refine ⟨?_, ?_, ?_, ?_⟩
  · exact (parse_link_classification (toPyStr "data-science") (toPyStr "/learn/ml")
      Store.empty []).2 (by decide) |>.1 (by decide)
  · exact (parse_link_classification (toPyStr "data-science") (toPyStr "/specializations/x")
      Store.empty []).2 (by decide) |>.2.1 (Or.inl (by decide))
  · exact (parse_link_classification (toPyStr "data-science") (toPyStr "/learn")
      Store.empty []).1 (by decide)
  · exact (parse_link_classification (toPyStr "data-science") (toPyStr "/about/team")
      Store.empty []).2 (by decide) |>.2.2 (by decide) (by decide) (by decide)

/-- C5: the claim states that normalization collapses every run of
non-alphanumeric characters to a single separator.  The regex class of
the code keeps dashes out of the replaced runs, so the run space-dash in
"a -b" yields two separators where the claim's collapse yields one. -/
theorem parse_category_name_hyphen_run_not_collapsed :
    parse_category_name (toPyStr "a -b") = toPyStr "a--b" ∧
    normalize_collapse_runs (toPyStr "a -b") = toPyStr "a-b" ∧
    parse_category_name (toPyStr "a -b") ≠ normalize_collapse_runs (toPyStr "a -b") := by
  exact ⟨by decide, by decide, by decide⟩

/-- C5 amended: normalization lower-cases and replaces every run of
characters other than lowercase alphanumerics and dashes by a single
dash; on any input containing no dash this coincides with collapsing
every non-alphanumeric run to a single separator, and "Data Science"
normalizes to "data-science". -/
theorem parse_category_name_amended (s : PyStr) :
    ((∀ c ∈ s, c ≠ 45) → parse_category_name s = normalize_collapse_runs s) ∧
    parse_category_name (toPyStr "Data Science") = toPyStr "data-science" := by
  constructor
  · intro h45
    unfold parse_category_name normalize_collapse_runs
    apply (subRuns_congr isKeyChar isAlnum (pyLower (pyStrip s)) ?_).1
    intro c hc
    unfold pyLower at hc
    obtain ⟨d, hd, rfl⟩ := List.mem_map.mp hc
    exact isKeyChar_eq_isAlnum _ (pyLowerChar_ne_dash d (h45 d (pyStrip_subset s d hd)))
  · decide

/-- C5 amended witness: the dash-free input "Data Science". -/
theorem parse_category_name_amended_witness :
    parse_category_name (toPyStr "Data Science")
      = normalize_collapse_runs (toPyStr "Data Science") :=
  (parse_category_name_amended (toPyStr "Data Science")).1 (by decide)

/-- C10: normalization is idempotent, so the session key survives the
round trip through the trigger endpoint's redirect with the raw category
and the poll endpoint's re-normalization. -/
theorem parse_category_name_idempotent (s : PyStr) :
    parse_category_name (parse_category_name s) = parse_category_name s :=
  parse_category_name_idem s

/-- C2: the claim says every worker task execution marks its URL finished
unconditionally, including on permanent fetch failure.  The code has no
try/finally: a fetch failure propagates out of load_course before
set_finished_url runs, so the URL stays in the processing set and never
reaches the finished set. -/
theorem load_course_fetch_failure_not_finished :
    load_course (fun _ => .error .fetchError) (toPyStr "data-science")
        (toPyStr "/learn/ml")
        (set_processing_url Store.empty (toPyStr "data-science") (toPyStr "/learn/ml"))
      = (set_processing_url Store.empty (toPyStr "data-science") (toPyStr "/learn/ml"),
          some .fetchError) ∧
    (toPyStr "data-science", toPyStr "/learn/ml") ∈
      (load_course (fun _ => .error .fetchError) (toPyStr "data-science")
          (toPyStr "/learn/ml")
          (set_processing_url Store.empty (toPyStr "data-science")
            (toPyStr "/learn/ml"))).1.processing_urls ∧
    (toPyStr "data-science", toPyStr "/learn/ml") ∉
      (load_course (fun _ => .error .fetchError) (toPyStr "data-science")
          (toPyStr "/learn/ml")
          (set_processing_url Store.empty (toPyStr "data-science")
            (toPyStr "/learn/ml"))).1.finished_urls := by
  exact ⟨rfl, by decide, by decide⟩

/-- C2 amended: a worker task (leaf load_course or branch
load_and_collect_from_page) marks its URL finished exactly when its body
runs to completion: when the fetch succeeds and extraction does not
raise, the URL is moved into the finished set and out of the processing
set (extraction mismatches caught as the absent record included); but a
fetch failure, or an extraction exception the except clause does not
catch, propagates with the store left as already written, so the URL is
not marked finished. -/
theorem worker_marks_finished_iff_body_completes
    (fetch : PyStr → Except PyErr Soup) (category url : PyStr) (st : Store)
    (q : List CrawlTask) :
    (∀ soup, fetch url = .ok soup → (∃ r, get_course_data soup = .ok r) →
      (load_course fetch category url st).2 = none ∧
      (category, url) ∈ (load_course fetch category url st).1.finished_urls ∧
      (category, url) ∉ (load_course fetch category url st).1.processing_urls ∧
      (load_and_collect_from_page fetch category url st q).2.2 = none ∧
      (category, url) ∈
        (load_and_collect_from_page fetch category url st q).1.finished_urls ∧
      (category, url) ∉
        (load_and_collect_from_page fetch category url st q).1.processing_urls) ∧
    (∀ e, fetch url = .error e →
      load_course fetch category url st = (st, some e) ∧
      load_and_collect_from_page fetch category url st q = (st, q, some e)) ∧
    (∀ soup e, fetch url = .ok soup → get_course_data soup = .error e →
      load_course fetch category url st = (st, some e) ∧
      load_and_collect_from_page fetch category url st q = (st, q, some e)) := by
  refine ⟨?_, ?_, ?_⟩
  · rintro soup hf ⟨r, hr⟩
    simp only [load_course, load_and_collect_from_page, hf, hr]
    cases r with
    | none =>
      simp [set_finished_url, mem_sadd, not_mem_filter_ne]
    | some cd =>
      simp [set_finished_url, mem_sadd, not_mem_filter_ne]
  · intro e he
    simp [load_course, load_and_collect_from_page, he]
  · intro soup e hf hg
    simp [load_course, load_and_collect_from_page, hf, hg]

/-- C2 amended witness: a successful leaf run on a page with no
extractable record marks the URL finished, and a failing fetch returns
the store unchanged with the exception. -/
theorem worker_marks_finished_iff_body_completes_witness :
    (load_course (fun _ => Except.ok (⟨[], [], [], [], [], [], [], [], []⟩ : Soup))
        (toPyStr "data-science") (toPyStr "/learn/ml") Store.empty).2 = none ∧
    (toPyStr "data-science", toPyStr "/learn/ml") ∈
      (load_course (fun _ => Except.ok (⟨[], [], [], [], [], [], [], [], []⟩ : Soup))
        (toPyStr "data-science") (toPyStr "/learn/ml") Store.empty).1.finished_urls ∧
    load_course (fun _ => Except.error PyErr.fetchError) (toPyStr "x")
        (toPyStr "/learn/y") Store.empty
      = (Store.empty, some PyErr.fetchError) := by
  have h1 := worker_marks_finished_iff_body_completes
    (fun _ => Except.ok (⟨[], [], [], [], [], [], [], [], []⟩ : Soup))
    (toPyStr "data-science") (toPyStr "/learn/ml") Store.empty []
  have h2 := worker_marks_finished_iff_body_completes
    (fun _ => Except.error PyErr.fetchError) (toPyStr "x") (toPyStr "/learn/y")
    Store.empty []
  have hs := h1.1 (⟨[], [], [], [], [], [], [], [], []⟩ : Soup) rfl ⟨none, rfl⟩
  exact ⟨hs.1, hs.2.1, (h2.2.1 PyErr.fetchError rfl).1⟩

/-- A page whose ratings-count element is present but digit-free. -/
def noRatingsSoup : Soup :=
  ⟨[toPyStr "Browse", toPyStr "Data Science"], [toPyStr "Course X"],
   [toPyStr "No ratings yet"], [toPyStr "2,400,000 already enrolled"],
   [[toPyStr "Ann"]], [toPyStr "about"], [toPyStr "Uni"], [], []⟩

/-- C3: the claim says get_course_data never raises, with a field whose
text contains no digits yielding the absent record.  The except clause
catches IndexError only, so on a page whose ratings-count element holds
no digit, text_to_int's ValueError escapes to the caller. -/
theorem get_course_data_raises_value_error :
    get_course_data noRatingsSoup = .error .valueError := rfl

/-- C3 amended: get_course_data never lets an IndexError escape — every
missing structural element yields the absent record — and the only
exception it can raise is the ValueError of a count field whose stripped
text contains no digit. -/
theorem get_course_data_absent_or_value_error (soup : Soup) :
    (∃ r, get_course_data soup = .ok r) ∨
    (get_course_data soup = .error .valueError ∧
      ((∃ t, soup.ratings_count_texts.head? = some t ∧
          (pyStrip t).filter isDigitCode = []) ∨
       (∃ t, soup.product_metrics_texts.head? = some t ∧
          (pyStrip t).filter isDigitCode = []))) := by
  unfold get_course_data
  cases hb : get_course_data_body soup with
  | ok cd => exact .inl ⟨some cd, rfl⟩
  | error e =>
    rcases get_course_data_body_error soup e hb with rfl | ⟨rfl, hc⟩
    · exact .inl ⟨none, rfl⟩
    · exact .inr ⟨rfl, hc⟩

/-- C6: the completion wait loop of collect_and_save_to_csv terminates.
Under the clock guarantee that after the k-th iteration's one-second
sleep at least k+1 seconds have elapsed, the loop observed over
timeout+1 iterations exits at some iteration j ≤ timeout — drained when
the poll saw an empty processing set, or timed out when the elapsed time
exceeded the bound — whichever came first: every earlier iteration saw a
busy set and an unexpired clock.  In particular it never runs out of the
observation window (never hangs), even if some URL never finishes. -/
theorem collect_wait_loop_terminates (busy : Nat → Bool) (elapsed : Nat → Nat)
    (timeout : Nat) (hclock : ∀ k, k + 1 ≤ elapsed k) :
    ∃ j, j ≤ timeout ∧
      ((watch_loop busy elapsed timeout (timeout + 1) 0 = .drained j ∧
          busy j = false) ∨
       (watch_loop busy elapsed timeout (timeout + 1) 0 = .timed_out j ∧
          busy j = true ∧ timeout < elapsed j)) ∧
      ∀ i, i < j → busy i = true ∧ elapsed i ≤ timeout := by
  obtain ⟨j, h0j, hres, hmin⟩ := watch_loop_exits busy elapsed timeout (timeout + 1) 0
    ⟨timeout, Nat.zero_le _, by omega, Or.inr (by have := hclock timeout; omega)⟩
  refine ⟨j, ?_, hres, fun i hi => hmin i (Nat.zero_le i) hi⟩
  by_contra hgt
  push_neg at hgt
  have h1 := (hmin timeout (Nat.zero_le _) hgt).2
  have h2 := hclock timeout
  omega

/-- C6 witness: a synthetic session whose processing set never drains and
the real clock that advances one second per sleep; the loop with a
three-second timeout exits within the bound. -/
theorem collect_wait_loop_terminates_witness :
    ∃ j, j ≤ 2 ∧
      ((watch_loop (fun _ => true) (fun k => k + 1) 2 (2 + 1) 0 = .drained j ∧
          (fun _ => true) j = false) ∨
       (watch_loop (fun _ => true) (fun k => k + 1) 2 (2 + 1) 0 = .timed_out j ∧
          (fun _ => true) j = true ∧ 2 < (fun k => k + 1) j)) ∧
      ∀ i, i < j → (fun _ => true) i = true ∧ (fun k => k + 1) i ≤ 2 :=
  collect_wait_loop_terminates (fun _ => true) (fun k => k + 1) 2
    (fun k => Nat.le_refl (k + 1))

/-- has_unfinished_urls is false exactly when no URL of the session is
processing. -/
theorem has_unfinished_urls_false_iff (st : Store) (k : PyStr) :
    has_unfinished_urls st k = false ↔ ∀ u, (k, u) ∉ st.processing_urls := by
  rw [← Bool.not_eq_true, has_unfinished_urls_iff]
  push_neg
  exact Iff.rfl

/-- has_courses is false exactly when the session stored no record. -/
theorem has_courses_false_iff (st : Store) (k : PyStr) :
    has_courses st k = false ↔ ∀ u cd, ((k, u), cd) ∉ st.courses := by
  rw [← Bool.not_eq_true, has_courses_iff]
  push_neg
  exact Iff.rfl

/-- C7: the poll endpoint returns exactly one of three outcomes for the
normalized key: the export file whenever it exists; otherwise 404 if and
only if the session has at least one finished URL, an empty processing
set and zero stored records; and the retrying please-wait response in
every other case — never an error for an in-progress session. -/
theorem category_route_outcomes (file_exists : PyStr → Bool) (st : Store)
    (category : PyStr) :
    (file_exists (path_to_csv (parse_category_name category)) = true →
      category_route file_exists st category =
        .export_file (path_to_csv (parse_category_name category))) ∧
    (file_exists (path_to_csv (parse_category_name category)) = false →
      ((category_route file_exists st category = .not_found ↔
        ((∃ u, (parse_category_name category, u) ∈ st.finished_urls) ∧
         (∀ u, (parse_category_name category, u) ∉ st.processing_urls) ∧
         (∀ u cd, ((parse_category_name category, u), cd) ∉ st.courses))) ∧
       (category_route file_exists st category = .pending ↔
        ¬((∃ u, (parse_category_name category, u) ∈ st.finished_urls) ∧
          (∀ u, (parse_category_name category, u) ∉ st.processing_urls) ∧
          (∀ u cd, ((parse_category_name category, u), cd) ∉ st.courses))))) := by
  have hchar :
      (has_finished_urls st (parse_category_name category) &&
        !has_unfinished_urls st (parse_category_name category) &&
        !has_courses st (parse_category_name category)) = true ↔
      ((∃ u, (parse_category_name category, u) ∈ st.finished_urls) ∧
       (∀ u, (parse_category_name category, u) ∉ st.processing_urls) ∧
       (∀ u cd, ((parse_category_name category, u), cd) ∉ st.courses)) := by
    rw [Bool.and_eq_true, Bool.and_eq_true, Bool.not_eq_true', Bool.not_eq_true',
      has_finished_urls_iff, has_unfinished_urls_false_iff, has_courses_false_iff]
    tauto
  constructor
  · intro hf
    simp [category_route, hf]
  · intro hf
    have heq : category_route file_exists st category =
        if (has_finished_urls st (parse_category_name category) &&
            !has_unfinished_urls st (parse_category_name category) &&
            !has_courses st (parse_category_name category)) = true
        then PollResult.not_found else PollResult.pending := by
      simp [category_route, hf]
    rw [heq]
    cases hcond : (has_finished_urls st (parse_category_name category) &&
        !has_unfinished_urls st (parse_category_name category) &&
        !has_courses st (parse_category_name category)) with
    | true =>
      have hP := hchar.mp hcond
      rw [if_pos rfl]
      exact ⟨iff_of_true rfl hP,
        iff_of_false (fun hx => by cases hx) (fun hn => hn hP)⟩
    | false =>
      have hP : ¬((∃ u, (parse_category_name category, u) ∈ st.finished_urls) ∧
          (∀ u, (parse_category_name category, u) ∉ st.processing_urls) ∧
          (∀ u cd, ((parse_category_name category, u), cd) ∉ st.courses)) := by
        intro hp
        rw [← hchar] at hp
        rw [hcond] at hp
        cases hp
      rw [if_neg (fun h => Bool.false_ne_true h)]
      exact ⟨iff_of_false (fun hx => by cases hx) hP, iff_of_true rfl hP⟩

/-- C7 witness: with no export file, a store with one finished URL,
nothing processing and no record polls as 404, while a store with a URL
still processing polls as the pending response. -/
theorem category_route_outcomes_witness :
    category_route (fun _ => false)
        ⟨[], [(toPyStr "data-science", toPyStr "/browse/data-science")], []⟩
        (toPyStr "data-science") = .not_found ∧
    category_route (fun _ => false)
        ⟨[(toPyStr "data-science", toPyStr "/browse/data-science")], [], []⟩
        (toPyStr "data-science") = .pending ∧
    category_route (fun _ => true) Store.empty (toPyStr "data-science") =
      .export_file (path_to_csv (parse_category_name (toPyStr "data-science"))) := by
  refine ⟨?_, ?_, ?_⟩
  · exact (((category_route_outcomes (fun _ => false)
      ⟨[], [(toPyStr "data-science", toPyStr "/browse/data-science")], []⟩
      (toPyStr "data-science")).2 rfl).1).mpr
      ⟨⟨toPyStr "/browse/data-science", by decide⟩, fun u => List.not_mem_nil _,
        fun u cd => List.not_mem_nil _⟩
  · exact (((category_route_outcomes (fun _ => false)
      ⟨[(toPyStr "data-science", toPyStr "/browse/data-science")], [], []⟩
      (toPyStr "data-science")).2 rfl).2).mpr
      (fun hp => by
        have := hp.2.1 (toPyStr "/browse/data-science")
        exact this (by decide))
  · exact (category_route_outcomes (fun _ => true) Store.empty
      (toPyStr "data-science")).1 rfl

/-- C8: the trigger boundary.  An empty category form value is rejected
with 400 and no crawl task is dispatched (no session is created).  When
the export file for the category already exists, the trigger dispatches
no crawl task either, redirects to the poll endpoint for the raw
category, and that poll — thanks to normalization being idempotent —
serves the stored export. -/
theorem post_category_boundary (file_exists : PyStr → Bool) (st : Store)
    (category : PyStr) :
    (category = [] → post_category file_exists category = (.bad_request, [])) ∧
    (category ≠ [] → file_exists (path_to_csv category) = true →
      (post_category file_exists category).2 = [] ∧
      (post_category file_exists category).1 =
        .redirect_to (toPyStr "/category/" ++ category) ∧
      category_route file_exists st category =
        .export_file (path_to_csv (parse_category_name category))) := by
  constructor
  · intro h
    simp [post_category, h]
  · intro hne hex
    have hpath : path_to_csv (parse_category_name category) = path_to_csv category :=
      path_to_csv_of_normalized category
    refine ⟨?_, ?_, ?_⟩
    · simp [post_category, hne, hex]
    · simp [post_category, hne]
    · simp [category_route, hpath, hex]

/-- C8 witness: the empty category is rejected without dispatch, and a
category whose export exists redirects without dispatching a crawl. -/
theorem post_category_boundary_witness :
    post_category (fun _ => true) [] = (.bad_request, []) ∧
    (post_category (fun _ => true) (toPyStr "Data Science")).2 = [] ∧
    category_route (fun _ => true) Store.empty (toPyStr "Data Science") =
      .export_file (path_to_csv (parse_category_name (toPyStr "Data Science"))) := by
  have h := post_category_boundary (fun _ => true) Store.empty (toPyStr "Data Science")
  have h2 := (h.2 (by decide) rfl)
  exact ⟨(post_category_boundary (fun _ => true) Store.empty []).1 rfl,
    h2.1, h2.2.2⟩

set_option maxRecDepth 8000 in
/-- C9: the claim says the export's text fields are quoted.  The source
leaves csv.writer on its default minimal quoting, so the plain text
fields of this one-record export are written bare — the serialized bytes
contain no quote — and the export differs from the always-quoted export
the claim describes. -/
theorem save_to_csv_plain_fields_unquoted :
    save_to_csv [(toPyStr "/learn/x",
        ⟨toPyStr "Course", toPyStr "DS", toPyStr "Ann Lee", toPyStr "Uni",
          10, 20, toPyStr "desc"⟩)]
      = toPyStr "Category Name,Course Name,Course Provider,First Instructor Name,Course Description,# of Students Enrolled,# of Ratings\r\nDS,Course,Uni,Ann Lee,desc,20,10\r\n" ∧
    save_to_csv [(toPyStr "/learn/x",
        ⟨toPyStr "Course", toPyStr "DS", toPyStr "Ann Lee", toPyStr "Uni",
          10, 20, toPyStr "desc"⟩)]
      ≠ save_to_csv_quote_text [(toPyStr "/learn/x",
        ⟨toPyStr "Course", toPyStr "DS", toPyStr "Ann Lee", toPyStr "Uni",
          10, 20, toPyStr "desc"⟩)] := by
  exact ⟨by decide, by decide⟩

/-- C9 amended: the export is exactly one header row naming the seven
columns in the fixed order followed by exactly one row per stored record
carrying that record's fields in the same column order; fields are
quoted minimally — a field without separator, quote or line break is
written bare — and that quoting suffices for the export to parse back to
precisely the header row and the record rows. -/
theorem save_to_csv_header_rows_roundtrip (courses : List (PyStr × CourseData)) :
    parseCsv (save_to_csv courses)
      = csv_header :: courses.map (fun e => course_row e.2) ∧
    csv_header =
      [toPyStr "Category Name", toPyStr "Course Name", toPyStr "Course Provider",
       toPyStr "First Instructor Name", toPyStr "Course Description",
       toPyStr "# of Students Enrolled", toPyStr "# of Ratings"] ∧
    (∀ cd : CourseData, course_row cd =
      [cd.category, cd.name, cd.providers, cd.first_instructor, cd.description,
       natToDecimal cd.students_count, natToDecimal cd.ratings_count]) ∧
    (∀ f : PyStr, needsQuote f = false → writeField f = f) := by
  refine ⟨?_, rfl, fun _ => rfl, fun f hf => ?_⟩
  · rw [save_to_csv_flatten]
    unfold parseCsv
    apply parseCsvAux_rt
    · intro r hr
      rcases List.mem_cons.mp hr with rfl | hr2
      · simp [csv_header, toPyStr]
      · obtain ⟨e, he, rfl⟩ := List.mem_map.mp hr2
        simp [course_row]
    · have := rows_length_le_flatten
        (csv_header :: courses.map (fun e => course_row e.2))
      omega
  · simp [writeField, hf]
